import Mathlib

/-!
Verification of the filename-normalisation and directory-cleanup core of
`rasmf.py` (rename-and-store-media-files).

The Python functions are embedded shallowly:

* strings are `String` / `List Char` (ASCII semantics: `str.lower`, `str.title`
  and the `[0-9]` / `[sS]` regex classes are modelled on ASCII characters,
  which is the domain exercised by the program and its test suite; regex `.`
  is modelled as "any character", i.e. filenames are assumed newline-free);
* a greedy anchored `re.sub(r'(^.*X)...', r'\1', s)` is embedded by scanning
  candidate start positions of `X` from the right (the leading greedy `.*`
  makes the regex engine pick the rightmost feasible occurrence of `X`);
* the filesystem is a finite rose tree (`DirTree`), `os.walk(..., topdown=False)`
  is its post-order traversal, and `shutil.move` success or failure (`OSError`)
  is an explicit boolean parameter;
* the four `config['file_extensions']` membership tests of `clean_up` are
  abstract predicates `String → Bool`, since the configuration file is
  external input.
-/

/-- The single-quote character `'` (written via its code point to keep the
source free of nested quote literals). -/
def squote : Char := Char.ofNat 39

/-- Generic right-to-left scanner: `scanLast g n` returns `g j` for the largest
`j ≤ n` with `(g j).isSome`, and `none` if there is no such `j`.  This is the
order in which a backtracking regex engine tries start positions for the part
of a pattern that follows a greedy anchored `^.*`. -/
def scanLast {α : Type} (g : Nat → Option α) : Nat → Option α
  | 0 => g 0
  | n + 1 =>
    match g (n + 1) with
    | some x => some x
    | none => scanLast g n

/-- Python `str.replace` for a one-character pattern `p` (left to right,
non-overlapping — trivially so for a single character). -/
def replace1 (p : Char) (rep : List Char) : List Char → List Char
  | [] => []
  | c :: cs => if c = p then rep ++ replace1 p rep cs else c :: replace1 p rep cs

/-- Python `str.replace` for a two-character pattern `p,q`: scan left to right;
on a match emit the replacement and continue *after* the matched pair
(non-overlapping matches). -/
def replace2 (p q : Char) (rep : List Char) : List Char → List Char
  | [] => []
  | [c] => [c]
  | c :: d :: cs =>
    if c = p ∧ d = q then rep ++ replace2 p q rep cs
    else c :: replace2 p q rep (d :: cs)

/-- One iteration of the `sanitise_string` loop for a one-character entry of
`character_list`: `if character in fname: fname = fname.replace(character, rep)`. -/
def saniChar (p : Char) (rep : List Char) (l : List Char) : List Char :=
  if p ∈ l then replace1 p rep l else l

/-- One iteration of the `sanitise_string` loop for a two-character entry
(`'-.'` or `'..'`), both replaced by `'.'`:
`if character in fname: fname = fname.replace(character, '.')`. -/
def saniPair (p q : Char) (l : List Char) : List Char :=
  if [p, q] <:+: l then replace2 p q ['.'] l else l

/-- `re.sub(r'\.$', r'', fname)`: strip a single trailing period if present. -/
def stripTrailingDot (l : List Char) : List Char :=
  if l.getLast? = some '.' then l.dropLast else l

/-- The replacement string `'and'` used for `'&'`. -/
def aand : List Char := ['a', 'n', 'd']

/-- The replacement string `'.'` used for every other entry of `character_list`. -/
def dotRep : List Char := ['.']

/-- The body of `sanitise_string` on character lists: the loop over
`character_list = [' ', '[', ']', '(', ')', "'", '&', '-.', '..']` unrolled in
list order (each entry replaced by `'.'`, except `'&'` which becomes `'and'`),
followed by removal of one trailing period. -/
def sanitise_data (l : List Char) : List Char :=
  stripTrailingDot
    (saniPair '.' '.'
      (saniPair '-' '.'
        (saniChar '&' aand
          (saniChar squote dotRep
            (saniChar ')' dotRep
              (saniChar '(' dotRep
                (saniChar ']' dotRep
                  (saniChar '[' dotRep
                    (saniChar ' ' dotRep l)))))))))

/-- `sanitise_string` from `rasmf.py`. -/
def sanitise_string (fname : String) : String :=
  String.mk (sanitise_data fname.data)

/-- Does a four-consecutive-digit window of the string start at index `j`? -/
def yearStartAt (cs : List Char) (j : Nat) : Bool :=
  ((cs.drop j).take 4).length == 4 && ((cs.drop j).take 4).all Char.isDigit

/-- Candidate for the regex `[0-9][0-9][0-9][0-9]` starting at `j`. -/
def yearG (cs : List Char) (j : Nat) : Option Nat :=
  if yearStartAt cs j then some j else none

/-- `split_on_year` from `rasmf.py`:
`re.sub(r'(^.*[0-9][0-9][0-9][0-9]).*', r'\1', fname)`.
The greedy anchored `^.*` makes the engine keep the prefix up to and including
the *rightmost* window of four consecutive digits; if the pattern does not
match, `re.sub` returns the string unchanged. -/
def split_on_year (s : String) : String :=
  match scanLast (yearG s.data) s.data.length with
  | some j => String.mk (s.data.take (j + 4))
  | none => s

/-- Length of the maximal digit run at the head of the list (the extent of a
greedy `[0-9]+`). -/
def digitRunLen : List Char → Nat
  | [] => 0
  | c :: cs => if c.isDigit then digitRunLen cs + 1 else 0

/-- Greedy match length of `[sS][0-9]+[eE][0-9]+` starting at position `p`:
an `s`/`S`, then a nonempty maximal digit run, then an `e`/`E` immediately
after it (inside a digit run an `e` cannot occur earlier), then a nonempty
maximal digit run.  Returns the total matched length. -/
def seMatchLen (cs : List Char) (p : Nat) : Option Nat :=
  match cs.drop p with
  | [] => none
  | c :: rest =>
    if c == 's' || c == 'S' then
      let d1 := digitRunLen rest
      if d1 == 0 then none
      else
        match rest.drop d1 with
        | [] => none
        | e :: rest2 =>
          if e == 'e' || e == 'E' then
            let d2 := digitRunLen rest2
            if d2 == 0 then none else some (1 + d1 + 1 + d2)
          else none
    else none

/-- Candidate `(start, length)` for `[sS][0-9]+[eE][0-9]+` at position `p`. -/
def seG (cs : List Char) (p : Nat) : Option (Nat × Nat) :=
  (seMatchLen cs p).map (fun l => (p, l))

/-- `split_on_season` from `rasmf.py`:
`re.sub(r'(^.*[sS][0-9]+[eE][0-9]+).*$', r'\1', fname)`.
The greedy anchored `^.*` selects the *rightmost* season/episode occurrence;
unchanged when there is none. -/
def split_on_season (s : String) : String :=
  match scanLast (seG s.data) s.data.length with
  | some pl => String.mk (s.data.take (pl.1 + pl.2))
  | none => s

/-- The claim's reading of the Pattern Extractors (refinement reference):
prefix of the input through the end of the *first* (leftmost) window of four
consecutive digits, unchanged when there is none. -/
def firstFourDigitRunCut (s : String) : String :=
  match ((List.range (s.data.length + 1)).filterMap (yearG s.data)).head? with
  | some j => String.mk (s.data.take (j + 4))
  | none => s

/-- Left-to-right enumeration of four-digit windows, keeping the prefix through
the end of the *last* one (the amended reading). -/
def lastFourDigitRunCut (s : String) : String :=
  match ((List.range (s.data.length + 1)).filterMap (yearG s.data)).getLast? with
  | some j => String.mk (s.data.take (j + 4))
  | none => s

/-- The claim's reading of `split_on_season` (refinement reference): prefix
through the end of the *first* (leftmost) `S<digits>E<digits>` match. -/
def firstSECut (s : String) : String :=
  match ((List.range (s.data.length + 1)).filterMap (seG s.data)).head? with
  | some pl => String.mk (s.data.take (pl.1 + pl.2))
  | none => s

/-- Left-to-right enumeration of `S<digits>E<digits>` matches, keeping the
prefix through the end of the *last* one (the amended reading). -/
def lastSECut (s : String) : String :=
  match ((List.range (s.data.length + 1)).filterMap (seG s.data)).getLast? with
  | some pl => String.mk (s.data.take (pl.1 + pl.2))
  | none => s

/-- Python `str.lower` (ASCII). -/
def strLower (s : String) : String := String.mk (s.data.map Char.toLower)

/-- Helper for Python `str.title`: an alphabetic character is upper-cased when
the previous character was not alphabetic (not "cased"), lower-cased otherwise;
other characters pass through and reset the flag. -/
def titleMap : List Char → Bool → List Char
  | [], _ => []
  | c :: cs, prevAlpha =>
    (if c.isAlpha then (if prevAlpha then c.toLower else c.toUpper) else c)
      :: titleMap cs c.isAlpha

/-- Python `str.title` (ASCII). -/
def title (s : String) : String := String.mk (titleMap s.data false)

/-- Candidate for the rightmost `'.'` of a list (used by `pySplitext`). -/
def dotG (cs : List Char) (j : Nat) : Option Nat :=
  if (cs.drop j).head? = some '.' then some j else none

/-- CPython `os.path.splitext` restricted to a bare filename (no directory
separators, as produced by `os.walk`): split at the last `'.'`, unless every
character before it is itself a `'.'` (a dotfile like `.bashrc` has no
extension). -/
def pySplitext (s : String) : String × String :=
  match scanLast (dotG s.data) s.data.length with
  | some d =>
    if (s.data.take d).all (fun c => c == '.') then (s, "")
    else (String.mk (s.data.take d), String.mk (s.data.drop d))
  | none => (s, "")

/-- `lower_splitext` from `rasmf.py`: `os.path.splitext(filename.lower())`. -/
def lower_splitext (filename : String) : String × String :=
  pySplitext (strLower filename)

/-- `relative_path` from `rasmf.py` with paths as component lists:
`os.path.relpath(full_path, start=base_path)` for a directory at or below the
base (the program only calls it on directories produced by walking the
incoming root), followed by taking the first component, with `'.'` mapped to
the empty string. -/
def relative_path (full_path base_path : List String) : String :=
  match full_path.drop base_path.length with
  | [] => ""
  | c :: _ => c

/-- Does `re.search(r'^[sS][0-9]+', fname)` succeed: the string starts with
`s`/`S` followed by at least one digit? -/
def startsWithSeasonMarker (s : String) : Bool :=
  match s.data with
  | c :: d :: _ => (c == 's' || c == 'S') && d.isDigit
  | _ => false

/-- Is the character one of the separator class `[-._]` (also written `[-_.]`)? -/
def isSepChar (c : Char) : Bool := c == '-' || c == '.' || c == '_'

/-- Candidate for `[-._][sS][0-9]+` starting at position `p`: returns
`(p, e)` where `e` is the end of the greedy match (separator, `s`/`S`, maximal
nonempty digit run).  Used by the directory branch of `tv_show_name`. -/
def dirSeasonG (cs : List Char) (p : Nat) : Option (Nat × Nat) :=
  match cs.drop p with
  | a :: b :: c :: _ =>
    if isSepChar a && (b == 's' || b == 'S') && c.isDigit then
      some (p, p + 2 + digitRunLen (cs.drop (p + 2)))
    else none
  | _ => none

/-- Candidate for `[-_.][Ss][0-9]+[Ee][0-9]+` starting at position `p` (a
separator followed by a full season/episode match).  Used by the filename
branch of `tv_show_name`. -/
def fnameSEG (cs : List Char) (p : Nat) : Option Nat :=
  match cs.drop p with
  | a :: _ =>
    if isSepChar a && (seMatchLen cs (p + 1)).isSome then some p else none
  | [] => none

/-- `tv_show_name` from `rasmf.py`.  The containing directory is sanitised and
title-cased.  If the filename starts with a season marker, the show name is
`re.sub(r'(^.*)[-._][sS][0-9]+', r'\1', first_dir)` — the greedy `^.*` picks
the rightmost separator+season occurrence, the replacement keeps the prefix,
and the text *after* the matched portion survives (the pattern has no trailing
`.*`).  Otherwise it is
`re.sub(r'(^.*)[-_.][Ss][0-9]+[Ee][0-9]+.*$', r'\1', fname)` — prefix before
the rightmost separator+season/episode occurrence, rest discarded.  Either
`re.sub` returns its input unchanged when there is no match. -/
def tv_show_name (first_dir fname : String) : String :=
  let fd := title (sanitise_string first_dir)
  if startsWithSeasonMarker fname then
    match scanLast (dirSeasonG fd.data) fd.data.length with
    | some pe => String.mk (fd.data.take pe.1 ++ fd.data.drop pe.2)
    | none => fd
  else
    match scanLast (fnameSEG fname.data) fname.data.length with
    | some p => String.mk (fname.data.take p)
    | none => fname

/-- Candidate for `[Ss][0-9]+` at position `p`, returning the captured token
(`s`/`S` with its maximal digit run, verbatim case). -/
def sTokenG (cs : List Char) (p : Nat) : Option (List Char) :=
  match cs.drop p with
  | c :: rest =>
    if (c == 's' || c == 'S') && !(digitRunLen rest == 0) then
      some (c :: rest.take (digitRunLen rest))
    else none
  | [] => none

/-- `tv_show_name_season` from `rasmf.py`:
`season = re.sub(r'^.*([Ss][0-9]+).*$', r'\1', fname)` — the greedy anchored
`^.*` captures the *rightmost* `S<digits>` token (whole string replaced by the
capture); when there is no match the string is returned unchanged — then
`sname + '-' + season`. -/
def tv_show_name_season (sname fname : String) : String :=
  let season :=
    match scanLast (sTokenG fname.data) fname.data.length with
    | some tok => String.mk tok
    | none => fname
  sname ++ "-" ++ season

/-- The claim's reading of the season token (refinement reference): the *first*
(leftmost) `S<digits>` token of the filename. -/
def firstSToken (fname : String) : Option String :=
  (((List.range (fname.data.length + 1)).filterMap (sTokenG fname.data)).head?).map String.mk

/-- Left-to-right enumeration of `S<digits>` tokens, keeping the *last* one
(the amended reading). -/
def lastSToken (fname : String) : Option String :=
  (((List.range (fname.data.length + 1)).filterMap (sTokenG fname.data)).getLast?).map String.mk

/-- The configuration folders consumed by the processing functions, as path
component lists. -/
structure Config where
  in_dir : List String
  tv_dir : List String
  movie_dir : List String

/-- A planned `shutil.move(source, target)`: directory components plus final
filename for both ends. -/
structure MoveOp where
  sourceDir : List String
  sourceName : String
  targetDir : List String
  targetName : String

/-- Which branch of `video_file` processed the file. -/
inductive MoveKind where
  | tv : MoveKind
  | movie : MoveKind

/-- Python truthiness of the `Option String` returned by the processing
functions: `None` and the empty string are falsy (`if clean_up_item:`). -/
def truthyOptStr : Option String → Bool
  | none => false
  | some s => s != ""

/-- `process_tv_show_file` from `rasmf.py`.  The filesystem move is the
explicit `moveOk` parameter (`true` = `shutil.move` succeeded, `false` = it
raised `OSError`, which the function catches, logs and turns into `None`).
Returns the attempted move and the Python return value (`first_relpath` on
success, `None` on failure). -/
def process_tv_show_file (cfg : Config) (moveOk : Bool) (source_dir : List String)
    (source_filename : String) : MoveOp × Option String :=
  let se := lower_splitext source_filename
  let tv_filename := title (split_on_season (sanitise_string se.1))
  let first_relpath := relative_path source_dir cfg.in_dir
  let show_name := tv_show_name first_relpath tv_filename
  let show_season := tv_show_name_season show_name tv_filename
  (⟨source_dir, source_filename, cfg.tv_dir ++ [show_name, show_season],
    tv_filename ++ se.2⟩,
   if moveOk then some first_relpath else none)

/-- `process_movie_file` from `rasmf.py`: sanitise the *whole* original
filename, truncate at the year, title-case, then append `'.' + file_extension`
(the lowercase dot-free extension captured by the caller).  Same `moveOk`
convention as `process_tv_show_file`. -/
def process_movie_file (cfg : Config) (moveOk : Bool) (source_dir : List String)
    (source_filename file_extension : String) : MoveOp × Option String :=
  let movie_filename := title (split_on_year (sanitise_string source_filename)) ++ "." ++ file_extension
  let first_relpath := relative_path source_dir cfg.in_dir
  (⟨source_dir, source_filename, cfg.movie_dir, movie_filename⟩,
   if moveOk then some first_relpath else none)

/-- `re.search(r'[sS][0-9]+[eE][0-9]+', s)` succeeds somewhere in `s`. -/
def hasSeasonEpisode (s : String) : Bool :=
  (List.range s.data.length).any (fun p => (seMatchLen s.data p).isSome)

/-- `re.search(r'[0-9][0-9][0-9][0-9]', s)` succeeds somewhere in `s`. -/
def hasFourDigitRun (s : String) : Bool :=
  (List.range s.data.length).any (fun j => yearStartAt s.data j)

/-- `video_file` from `rasmf.py`.  Classifies by the season/episode search
first, then the four-digit search, else does nothing.  The shared mutable
`clean_up_list` is threaded explicitly; the append is guarded by Python
truthiness of the processing function's return value.  Also returns which
branch ran and the move it attempted (`none` when unrecognized). -/
def video_file (cfg : Config) (moveOk : Bool) (rootdir : List String)
    (full_filename file_extension : String) (clean_up_list : List String) :
    List String × Option (MoveKind × MoveOp) :=
  if hasSeasonEpisode full_filename then
    let r := process_tv_show_file cfg moveOk rootdir full_filename
    (if truthyOptStr r.2 then clean_up_list ++ [r.2.getD ""] else clean_up_list,
     some (MoveKind.tv, r.1))
  else if hasFourDigitRun full_filename then
    let r := process_movie_file cfg moveOk rootdir full_filename file_extension
    (if truthyOptStr r.2 then clean_up_list ++ [r.2.getD ""] else clean_up_list,
     some (MoveKind.movie, r.1))
  else (clean_up_list, none)

/-- A directory subtree: the files directly inside it and its subdirectories
(subdirectory names are irrelevant to `clean_up`, which only inspects file
extensions). -/
inductive DirTree where
  | mk : List String → List DirTree → DirTree

mutual
/-- The `files` component of each triple yielded by
`os.walk(del_target, topdown=False)`: post-order traversal, every
subdirectory's subtree before the directory itself, the walk root last. -/
def walkFiles : DirTree → List (List String)
  | .mk fs subs => walkFilesList subs ++ [fs]
/-- Post-order walk of a list of sibling subtrees, in listing order. -/
def walkFilesList : List DirTree → List (List String)
  | [] => []
  | t :: ts => walkFiles t ++ walkFilesList ts
end

/-- `len(os.listdir(del_target))`: direct entries (files and subdirectories). -/
def listingLen : DirTree → Nat
  | .mk fs subs => fs.length + subs.length

/-- The recognized-extension test of `clean_up`:
`os.path.splitext(full_filename.lower())` and membership of the extension in
the `video` / `audio` / `doc` / `other` configuration sets, abstracted as the
predicates `v a d o`. -/
def recogFile (v a d o : String → Bool) (full_filename : String) : Bool :=
  let ext := (pySplitext (strLower full_filename)).2
  v ext || a ext || d ext || o ext

/-- One iteration of the `os.walk` loop of `clean_up` over a walked directory's
`files` list: a directory with no files sets `dir_can_be_deleted = True`;
otherwise the inner loop sets the flag to `False` for every recognized file it
sees (and never sets it to `True`). -/
def cleanStep (v a d o : String → Bool) (flag : Bool) (files : List String) : Bool :=
  if files.isEmpty then true
  else files.foldl (fun fl f => if recogFile v a d o f then false else fl) flag

/-- The deletion decision of `clean_up` for a resolved, existing target
directory: `dir_can_be_deleted` starts `False`; an empty listing makes the
directory deletable at once; otherwise the flag is rewritten by each step of
the bottom-up walk and its final value decides `shutil.rmtree(del_target)`
(the model's target always exists, so the final existence re-check passes). -/
def clean_up_decision (v a d o : String → Bool) (t : DirTree) : Bool :=
  if listingLen t = 0 then true
  else (walkFiles t).foldl (cleanStep v a d o) false

/-- Does the subtree contain any file whose lowercase extension is recognized
(video, audio, document or other)? -/
def hasRecognizedFile (v a d o : String → Bool) (t : DirTree) : Bool :=
  (walkFiles t).any (fun fs => fs.any (recogFile v a d o))

/-- A constantly-false extension predicate (an extension set containing none of
the extensions mentioned in the scenarios below). -/
def noExt : String → Bool := fun _ => false

/-- An extension predicate recognizing exactly `.avi` (a video set). -/
def aviExt : String → Bool := fun e => e == ".avi"

/-- Concrete configuration used by witnesses and counterexamples. -/
def cfg0 : Config := ⟨["in"], ["tv"], ["mov"]⟩

/-- A candidate directory with no direct files whose only subdirectory holds a
recognized video file. -/
def tRecognizedDeep : DirTree := .mk [] [.mk ["movie.avi"] []]

/-- A non-empty candidate directory holding only a file of unknown type. -/
def tJunkOnly : DirTree := .mk ["junk.xyz"] []

/-- A candidate directory holding a junk file and an empty subdirectory. -/
def tJunkAndEmpty : DirTree := .mk ["junk.xyz"] [.mk [] []]

/-- Case analysis principle following the recursion pattern of `replace2`. -/
def twoStepRec {motive : List Char → Prop} (h0 : motive [])
    (h1 : ∀ c, motive [c])
    (h2 : ∀ c d cs, motive cs → motive (d :: cs) → motive (c :: d :: cs)) :
    ∀ l, motive l
  | [] => h0
  | [c] => h1 c
  | c :: d :: cs => h2 c d cs (twoStepRec h0 h1 h2 cs) (twoStepRec h0 h1 h2 (d :: cs))

/-- The right-to-left scanner finds the last hit of the left-to-right
enumeration. -/
theorem scanLast_eq {α : Type} (g : Nat → Option α) (n : Nat) :
    scanLast g n = ((List.range (n + 1)).filterMap g).getLast? := by
  induction n with
  | zero =>
    show g 0 = _
    rw [List.range_succ]
    simp only [List.range_zero, List.nil_append, List.filterMap_cons]
    cases h : g 0 <;> simp [h]
  | succ n ih =>
    rw [List.range_succ, List.filterMap_append]
    show (match g (n + 1) with
          | some x => some x
          | none => scanLast g n) = _
    cases h : g (n + 1) with
    | none => simp [h, ih]
    | some x =>
      simp only [h, List.filterMap_cons, List.filterMap_nil]
      rw [List.getLast?_concat]

/-- Every character of `replace1 p rep l` comes from `l` or from `rep`. -/
theorem mem_replace1 {x p : Char} {rep : List Char} :
    ∀ {l : List Char}, x ∈ replace1 p rep l → x ∈ l ∨ x ∈ rep := by
  intro l
  induction l with
  | nil => intro h; simp [replace1] at h
  | cons c cs ih =>
    intro h
    by_cases hc : c = p
    · rw [replace1, if_pos hc] at h
      rcases List.mem_append.1 h with h | h
      · exact Or.inr h
      · rcases ih h with h | h
        · exact Or.inl (List.mem_cons_of_mem _ h)
        · exact Or.inr h
    · rw [replace1, if_neg hc] at h
      rcases List.mem_cons.1 h with h | h
      · exact Or.inl (h ▸ List.mem_cons_self _ _)
      · rcases ih h with h | h
        · exact Or.inl (List.mem_cons_of_mem _ h)
        · exact Or.inr h

/-- `replace1` removes every occurrence of its pattern character, provided the
replacement does not reintroduce it. -/
theorem not_mem_replace1_self {p : Char} {rep : List Char} (hr : p ∉ rep) :
    ∀ {l : List Char}, p ∉ replace1 p rep l := by
  intro l
  induction l with
  | nil => simp [replace1]
  | cons c cs ih =>
    by_cases hc : c = p
    · rw [replace1, if_pos hc]
      intro h
      rcases List.mem_append.1 h with h | h
      · exact hr h
      · exact ih h
    · rw [replace1, if_neg hc]
      intro h
      rcases List.mem_cons.1 h with h | h
      · exact hc h.symm
      · exact ih h

/-- Every character of `replace2 p q rep l` comes from `l` or from `rep`. -/
theorem mem_replace2 {x p q : Char} {rep : List Char} :
    ∀ l : List Char, x ∈ replace2 p q rep l → x ∈ l ∨ x ∈ rep := by
  refine twoStepRec ?_ ?_ ?_
  · intro h; simp [replace2] at h
  · intro c h; rw [replace2] at h; exact Or.inl h
  · intro c d cs ih1 ih2 h
    by_cases hcd : c = p ∧ d = q
    · rw [replace2, if_pos hcd] at h
      rcases List.mem_append.1 h with h | h
      · exact Or.inr h
      · rcases ih1 h with h | h
        · exact Or.inl (List.mem_cons_of_mem _ (List.mem_cons_of_mem _ h))
        · exact Or.inr h
    · rw [replace2, if_neg hcd] at h
      rcases List.mem_cons.1 h with h | h
      · exact Or.inl (h ▸ List.mem_cons_self _ _)
      · rcases ih2 h with h | h
        · exact Or.inl (List.mem_cons_of_mem _ h)
        · exact Or.inr h

/-- A `saniChar` step cannot introduce a character that is absent from both the
input and the replacement. -/
theorem not_mem_saniChar {x p : Char} {rep l : List Char}
    (hl : x ∉ l) (hr : x ∉ rep) : x ∉ saniChar p rep l := by
  unfold saniChar
  split
  · intro h
    rcases mem_replace1 h with h | h
    · exact hl h
    · exact hr h
  · exact hl

/-- A `saniChar` step removes its own pattern character, provided the
replacement does not contain it. -/
theorem not_mem_saniChar_self {p : Char} {rep l : List Char} (hr : p ∉ rep) :
    p ∉ saniChar p rep l := by
  unfold saniChar
  split
  · exact not_mem_replace1_self hr
  · assumption

/-- A `saniPair` step (replacement `'.'`) cannot introduce a character other
than `'.'`. -/
theorem not_mem_saniPair {x p q : Char} {l : List Char}
    (hl : x ∉ l) (hx : x ≠ '.') : x ∉ saniPair p q l := by
  unfold saniPair
  split
  · intro h
    rcases mem_replace2 l h with h | h
    · exact hl h
    · rcases List.mem_singleton.1 h with h
      exact hx h
  · exact hl

/-- Stripping a trailing dot cannot introduce a character. -/
theorem not_mem_stripTrailingDot {x : Char} {l : List Char} (hl : x ∉ l) :
    x ∉ stripTrailingDot l := by
  unfold stripTrailingDot
  split
  · intro h
    exact hl (List.dropLast_subset l h)
  · exact hl

/-- No output of `sanitise_string` contains a space, bracket, parenthesis,
single quote or ampersand: each is eliminated by its own pass, and no later
pass (the replacements are only `'.'` and `'and'`) reintroduces it. -/
theorem sanitise_absent (s : String) :
    ∀ c, c ∈ ([' ', '[', ']', '(', ')', squote, '&'] : List Char) →
      c ∉ (sanitise_string s).data := by
  intro c hc
  simp only [List.mem_cons, List.mem_singleton, List.not_mem_nil, or_false] at hc
  simp only [sanitise_string, sanitise_data]
  rcases hc with rfl | rfl | rfl | rfl | rfl | rfl | rfl
  · exact not_mem_stripTrailingDot (not_mem_saniPair (not_mem_saniPair
      (not_mem_saniChar (not_mem_saniChar (not_mem_saniChar (not_mem_saniChar
        (not_mem_saniChar (not_mem_saniChar (not_mem_saniChar_self (by decide))
          (by decide)) (by decide)) (by decide)) (by decide)) (by decide))
        (by decide)) (by decide)) (by decide))
  · exact not_mem_stripTrailingDot (not_mem_saniPair (not_mem_saniPair
      (not_mem_saniChar (not_mem_saniChar (not_mem_saniChar (not_mem_saniChar
        (not_mem_saniChar (not_mem_saniChar_self (by decide)) (by decide))
          (by decide)) (by decide)) (by decide)) (by decide)) (by decide))
        (by decide))
  · exact not_mem_stripTrailingDot (not_mem_saniPair (not_mem_saniPair
      (not_mem_saniChar (not_mem_saniChar (not_mem_saniChar (not_mem_saniChar
        (not_mem_saniChar_self (by decide)) (by decide)) (by decide))
          (by decide)) (by decide)) (by decide)) (by decide))
  · exact not_mem_stripTrailingDot (not_mem_saniPair (not_mem_saniPair
      (not_mem_saniChar (not_mem_saniChar (not_mem_saniChar
        (not_mem_saniChar_self (by decide)) (by decide)) (by decide))
          (by decide)) (by decide)) (by decide))
  · exact not_mem_stripTrailingDot (not_mem_saniPair (not_mem_saniPair
      (not_mem_saniChar (not_mem_saniChar (not_mem_saniChar_self (by decide))
        (by decide)) (by decide)) (by decide)) (by decide))
  · exact not_mem_stripTrailingDot (not_mem_saniPair (not_mem_saniPair
      (not_mem_saniChar (not_mem_saniChar_self (by decide)) (by decide))
        (by decide)) (by decide))
  · exact not_mem_stripTrailingDot (not_mem_saniPair (not_mem_saniPair
      (not_mem_saniChar_self (by decide)) (by decide)) (by decide))

/-- A `saniChar` pass whose pattern character does not occur is the identity
(its `in` guard fails). -/
theorem saniChar_id {p : Char} {rep l : List Char} (h : p ∉ l) :
    saniChar p rep l = l := if_neg h

/-- A `saniPair` pass whose two-character pattern does not occur as a substring
is the identity (its `in` guard fails). -/
theorem saniPair_id {p q : Char} {l : List Char} (h : ¬ ([p, q] <:+: l)) :
    saniPair p q l = l := if_neg h

/-- Stripping a trailing dot from a list that does not end in a dot is the
identity. -/
theorem stripTrailingDot_id {l : List Char} (h : l.getLast? ≠ some '.') :
    stripTrailingDot l = l := if_neg h

/-- `(String.mk l).data = l`. -/
theorem data_mk (l : List Char) : (String.mk l).data = l := rfl

/-- The whole sanitising chain is the identity on a list that contains none of
the seven single characters, neither two-character pattern, and no trailing
period. -/
theorem sanitise_data_id (l : List Char)
    (habs : ∀ c, c ∈ ([' ', '[', ']', '(', ')', squote, '&'] : List Char) → c ∉ l)
    (h1 : ¬ (['.', '.'] <:+: l)) (h2 : ¬ (['-', '.'] <:+: l))
    (h3 : l.getLast? ≠ some '.') :
    sanitise_data l = l := by
  unfold sanitise_data
  rw [saniChar_id (habs ' ' (by decide)), saniChar_id (habs '[' (by decide)),
    saniChar_id (habs ']' (by decide)), saniChar_id (habs '(' (by decide)),
    saniChar_id (habs ')' (by decide)), saniChar_id (habs squote (by decide)),
    saniChar_id (habs '&' (by decide)), saniPair_id h2, saniPair_id h1,
    stripTrailingDot_id h3]

/-- A fold of the recognized-extension inner loop over files none of which is
recognized leaves the flag unchanged. -/
theorem foldl_not_recog (v a d o : String → Bool) :
    ∀ (fs : List String) (b : Bool),
      (∀ f ∈ fs, recogFile v a d o f = false) →
      fs.foldl (fun fl f => if recogFile v a d o f then false else fl) b = b := by
  intro fs
  induction fs with
  | nil => intro b _; rfl
  | cons f fs ih =>
    intro b h
    rw [List.foldl_cons, h f (List.mem_cons_self _ _)]
    exact ih b (fun g hg => h g (List.mem_cons_of_mem _ hg))

/-- When no walked directory contains a recognized file, the final value of
`dir_can_be_deleted` after the walk fold is: the initial flag, or else whether
some walked directory had no files at all (each file-less directory rewrites
the flag to `True`, and nothing ever rewrites it back except a recognized
file, of which there are none). -/
theorem foldl_cleanStep_eq (v a d o : String → Bool) :
    ∀ (L : List (List String)) (b : Bool),
      (∀ fs ∈ L, ∀ f ∈ fs, recogFile v a d o f = false) →
      L.foldl (cleanStep v a d o) b = (b || L.any List.isEmpty) := by
  intro L
  induction L with
  | nil => intro b _; simp
  | cons fs L ih =>
    intro b h
    rw [List.foldl_cons, List.any_cons]
    cases fs with
    | nil =>
      rw [show cleanStep v a d o b [] = true from rfl]
      rw [ih true (fun gs hgs => h gs (List.mem_cons_of_mem _ hgs))]
      simp
    | cons f fs' =>
      have hstep : cleanStep v a d o b (f :: fs') = b := by
        unfold cleanStep
        rw [if_neg (by simp)]
        exact foldl_not_recog v a d o (f :: fs') b (h _ (List.mem_cons_self _ _))
      rw [hstep, ih b (fun gs hgs => h gs (List.mem_cons_of_mem _ hgs))]
      simp

/-- The walk of a directory with no entries yields exactly one triple, whose
`files` component is empty. -/
theorem walkFiles_leaf : walkFiles (DirTree.mk [] []) = [[]] := rfl

/-- C2 (amended): `split_on_year` and `split_on_season` return the prefix of
the input ending at the end of the *last* qualifying occurrence in
left-to-right order (a window of four consecutive decimal digits, respectively
a greedy case-insensitive `S<digits>E<digits>` match) — the greedy anchored
`^.*` of both substitutions selects the rightmost occurrence, and a digit run
longer than four is cut at its final digit; inputs with no qualifying
occurrence are returned unchanged. -/
theorem split_functions_last_occurrence (s t : String) :
    split_on_year s = lastFourDigitRunCut s ∧ split_on_season t = lastSECut t := by
  constructor
  · unfold split_on_year lastFourDigitRunCut
    rw [scanLast_eq]
  · unfold split_on_season lastSECut
    rw [scanLast_eq]

/-- C2 (counterexample): on `"2015ab1984cd"` the code keeps the prefix through
the *last* four-digit window (`"2015ab1984"`), not through the first
qualifying occurrence (`"2015"`) as the claim states. -/
theorem split_on_year_not_first_cex :
    split_on_year "2015ab1984cd" ≠ firstFourDigitRunCut "2015ab1984cd" := by decide

/-- C3 (amended): `sanitise_string` is idempotent on every input whose output
contains no two consecutive periods, no `-.` sequence, and no trailing period
— on such outputs every pass of a second application is the identity.  (The
replacement of `'..'` by `'.'` is single-pass and non-overlapping, so outputs
such as `sanitise_string "..." = "."` escape these conditions and are not
fixed points.) -/
theorem sanitise_idempotent_amended (s : String)
    (h1 : ¬ (['.', '.'] <:+: (sanitise_string s).data))
    (h2 : ¬ (['-', '.'] <:+: (sanitise_string s).data))
    (h3 : (sanitise_string s).data.getLast? ≠ some '.') :
    sanitise_string (sanitise_string s) = sanitise_string s := by
  have key := sanitise_data_id (sanitise_string s).data (sanitise_absent s) h1 h2 h3
  show String.mk (sanitise_data (sanitise_string s).data) = sanitise_string s
  rw [key]

/-- C3 (witness): a concrete instance of the amended idempotence theorem. -/
theorem sanitise_idempotent_witness :
    sanitise_string (sanitise_string "a b") = sanitise_string "a b" :=
  sanitise_idempotent_amended "a b" (by decide) (by decide) (by decide)

/-- C3 (counterexample): `sanitise_string "..." = "."` but
`sanitise_string "." = ""`, so the Sanitizer is not idempotent. -/
theorem sanitise_not_idempotent_cex :
    sanitise_string (sanitise_string "...") ≠ sanitise_string "..." := by decide

/-- C7 (amended): the output of `sanitise_string` never contains a space,
square bracket, parenthesis or single quote (each is replaced everywhere by
its own pass and never reintroduced).  The trailing-period part of the claim
is dropped: only one trailing period is stripped, so the output can still end
in a period. -/
theorem sanitise_output_chars (s : String) :
    ' ' ∉ (sanitise_string s).data ∧ '[' ∉ (sanitise_string s).data ∧
    ']' ∉ (sanitise_string s).data ∧ '(' ∉ (sanitise_string s).data ∧
    ')' ∉ (sanitise_string s).data ∧ squote ∉ (sanitise_string s).data :=
  ⟨sanitise_absent s ' ' (by decide), sanitise_absent s '[' (by decide),
   sanitise_absent s ']' (by decide), sanitise_absent s '(' (by decide),
   sanitise_absent s ')' (by decide), sanitise_absent s squote (by decide)⟩

/-- C7 (counterexample): the output of `sanitise_string` on `"..."` is `"."`,
which ends with a period, refuting the trailing-period part of the claim. -/
theorem sanitise_trailing_period_cex :
    (sanitise_string "...").data.getLast? = some '.' := by decide

/-- C6 (amended): `tv_show_name_season` returns `show_name ++ "-" ++` the
*last* case-insensitive `S<digits>` token of the filename in left-to-right
order (greedy `^.*` again), captured with its verbatim case, and
`show_name ++ "-" ++` the unmodified filename when there is no such token. -/
theorem tv_show_name_season_last_token (sname fname : String) :
    tv_show_name_season sname fname =
      sname ++ "-" ++ ((lastSToken fname).getD fname) := by
  unfold tv_show_name_season lastSToken
  rw [scanLast_eq]
  cases h : ((List.range (fname.data.length + 1)).filterMap (sTokenG fname.data)).getLast? with
  | none => simp [h]
  | some tok => simp [h]

/-- C6 (counterexample): on filename `"s1.s2"` the code appends the *last*
season token (`"s2"`), not the first (`"s1"`) as the claim states. -/
theorem tv_show_name_season_not_first_cex :
    tv_show_name_season "X" "s1.s2" ≠
      "X" ++ "-" ++ ((firstSToken "s1.s2").getD "s1.s2") := by decide

/-- C10: when the filename does not begin with a case-insensitive season
marker `S<digits>`, `tv_show_name` takes its else-branch, which reads only the
filename — so the result is identical for any two directory arguments. -/
theorem tv_show_name_dir_independent (d1 d2 f : String)
    (h : startsWithSeasonMarker f = false) :
    tv_show_name d1 f = tv_show_name d2 f := by
  simp [tv_show_name, h]

/-- C10 (witness): concrete instance with two different directories. -/
theorem tv_show_name_dir_independent_witness :
    startsWithSeasonMarker "x-S01E01" = false ∧
    tv_show_name "A" "x-S01E01" = tv_show_name "B" "x-S01E01" :=
  ⟨by decide, tv_show_name_dir_independent "A" "B" "x-S01E01" (by decide)⟩

/-- C8: classification decision order of `video_file`: a filename containing a
case-insensitive `S<digits>E<digits>` substring is processed as a TV episode
(even if it also contains a four-digit run); otherwise one containing four
consecutive digits is processed as a movie; otherwise nothing happens — no
move is attempted and the clean-up list is unchanged. -/
theorem video_file_decision_order (cfg : Config) (mo : Bool) (root : List String)
    (f ext : String) (l : List String) :
    (hasSeasonEpisode f = true →
      (video_file cfg mo root f ext l).2 =
        some (MoveKind.tv, (process_tv_show_file cfg mo root f).1)) ∧
    (hasSeasonEpisode f = false → hasFourDigitRun f = true →
      (video_file cfg mo root f ext l).2 =
        some (MoveKind.movie, (process_movie_file cfg mo root f ext).1)) ∧
    (hasSeasonEpisode f = false → hasFourDigitRun f = false →
      video_file cfg mo root f ext l = (l, none)) := by
  refine ⟨?_, ?_, ?_⟩
  · intro h; simp [video_file, h]
  · intro h1 h2; simp [video_file, h1, h2]
  · intro h1 h2; simp [video_file, h1, h2]

/-- C8 (witness): the three branches at concrete filenames —
`"a.s01e01.avi"` (has an S/E marker), `"b.2001.avi"` (year only) and
`"c.avi"` (neither). -/
theorem video_file_decision_order_witness :
    (video_file cfg0 true ["in", "d"] "a.s01e01.avi" "avi" []).2 =
      some (MoveKind.tv, (process_tv_show_file cfg0 true ["in", "d"] "a.s01e01.avi").1) ∧
    (video_file cfg0 true ["in", "d"] "b.2001.avi" "avi" []).2 =
      some (MoveKind.movie, (process_movie_file cfg0 true ["in", "d"] "b.2001.avi" "avi").1) ∧
    video_file cfg0 true ["in", "d"] "c.avi" "avi" [] = ([], none) :=
  ⟨(video_file_decision_order cfg0 true ["in", "d"] "a.s01e01.avi" "avi" []).1 (by decide),
   (video_file_decision_order cfg0 true ["in", "d"] "b.2001.avi" "avi" []).2.1 (by decide) (by decide),
   (video_file_decision_order cfg0 true ["in", "d"] "c.avi" "avi" []).2.2 (by decide) (by decide)⟩

/-- C9: when the move raises `OSError` (modelled by `moveOk = false`, the
`except OSError` branch that logs and returns `None`), both processing
functions return `None` and `video_file` leaves the clean-up list unchanged —
no CleanupCandidate is registered for the failed file. -/
theorem move_failure_contained (cfg : Config) (root : List String) (f ext : String)
    (l : List String) :
    (process_tv_show_file cfg false root f).2 = none ∧
    (process_movie_file cfg false root f ext).2 = none ∧
    (video_file cfg false root f ext l).1 = l := by
  refine ⟨rfl, rfl, ?_⟩
  by_cases h1 : hasSeasonEpisode f
  · simp [video_file, h1, process_tv_show_file, truthyOptStr]
  · by_cases h2 : hasFourDigitRun f
    · simp [video_file, h1, h2, process_movie_file, truthyOptStr]
    · simp [video_file, h1, h2]

/-- C4 (amended): on a successful move the candidate appended to the clean-up
list is exactly the first path component of the source directory relative to
the incoming root — but only when that component is non-empty: the truthiness
test `if clean_up_item:` silently drops the empty-string candidate of a file
lying directly in the incoming root. -/
theorem cleanup_candidate_appended (cfg : Config) (mo : Bool) (root : List String)
    (f ext : String) (l : List String) :
    (video_file cfg mo root f ext l).1 =
      if (hasSeasonEpisode f || hasFourDigitRun f) = true ∧ mo = true ∧
          relative_path root cfg.in_dir ≠ "" then
        l ++ [relative_path root cfg.in_dir]
      else l := by
  by_cases h1 : hasSeasonEpisode f
  · cases mo with
    | false => simp [video_file, h1, process_tv_show_file, truthyOptStr]
    | true =>
      by_cases hr : relative_path root cfg.in_dir = ""
      · simp [video_file, h1, process_tv_show_file, truthyOptStr, hr]
      · simp [video_file, h1, process_tv_show_file, truthyOptStr, hr]
  · by_cases h2 : hasFourDigitRun f
    · cases mo with
      | false => simp [video_file, h1, h2, process_movie_file, truthyOptStr]
      | true =>
        by_cases hr : relative_path root cfg.in_dir = ""
        · simp [video_file, h1, h2, process_movie_file, truthyOptStr, hr]
        · simp [video_file, h1, h2, process_movie_file, truthyOptStr, hr]
    · simp [video_file, h1, h2]

/-- C4 (counterexample): a TV file lying directly in the incoming root moves
successfully and `process_tv_show_file` returns the empty-string candidate,
yet `video_file` does not append it to the clean-up list. -/
theorem root_level_candidate_dropped_cex :
    (process_tv_show_file cfg0 true ["in"] "a.s01e01.avi").2 = some "" ∧
    (video_file cfg0 true ["in"] "a.s01e01.avi" "avi" []).1 = [] := by
  constructor
  · decide
  · decide

/-- C1 (failing input): a candidate directory with no direct files whose only
subdirectory holds `movie.avi`, with `.avi` in the recognized video set.  The
bottom-up walk first visits the subdirectory and sets the flag to `False`
because of the recognized file, but the final iteration — the candidate
itself, which has no direct files — rewrites `dir_can_be_deleted` to `True`,
so `clean_up` removes the whole tree, recognized file included.  This
contradicts the in-code comment "Skip known filetypes that still exist, just
in case" and the spec's stated invariant. -/
theorem clean_up_deletes_recognized_bug :
    hasRecognizedFile aviExt noExt noExt noExt tRecognizedDeep = true ∧
    clean_up_decision aviExt noExt noExt noExt tRecognizedDeep = true := by
  constructor
  · decide
  · decide

/-- C5 (counterexample): a non-empty candidate directory whose only content is
the unknown-type file `junk.xyz` is *not* deletable: the flag starts `False`,
the only walked directory has files, and a file of unrecognized extension
never sets the flag — so the claim that such directories are removed fails. -/
theorem clean_up_junk_only_preserved_cex :
    listingLen tJunkOnly ≠ 0 ∧
    hasRecognizedFile noExt noExt noExt noExt tJunkOnly = false ∧
    clean_up_decision noExt noExt noExt noExt tJunkOnly = false := by
  refine ⟨by decide, by decide, by decide⟩

/-- C5 (amended): for a candidate whose subtree contains no recognized-type
file, `clean_up` removes the target exactly when some directory of the
bottom-up walk (the target itself or a descendant) has no files directly in
it; a non-empty target each of whose directories holds at least one
(unknown-type) file is preserved. -/
theorem clean_up_unknown_only_characterisation (v a d o : String → Bool) (t : DirTree)
    (h : hasRecognizedFile v a d o t = false) :
    clean_up_decision v a d o t = (walkFiles t).any List.isEmpty := by
  have hall : ∀ fs ∈ walkFiles t, ∀ f ∈ fs, recogFile v a d o f = false := by
    simp only [hasRecognizedFile, List.any_eq_false, Bool.not_eq_true] at h
    exact h
  unfold clean_up_decision
  by_cases h0 : listingLen t = 0
  · rw [if_pos h0]
    cases t with
    | mk fs subs =>
      simp only [listingLen, Nat.add_eq_zero, List.length_eq_zero] at h0
      rw [h0.1, h0.2, walkFiles_leaf]
      decide
  · rw [if_neg h0, foldl_cleanStep_eq v a d o (walkFiles t) false hall]
    simp

/-- C5 (witness): with an empty subdirectory next to the junk file the amended
characterisation makes the candidate deletable. -/
theorem clean_up_unknown_only_witness :
    clean_up_decision noExt noExt noExt noExt tJunkAndEmpty = true :=
  (clean_up_unknown_only_characterisation noExt noExt noExt noExt tJunkAndEmpty
    (by decide)).trans (by decide)
